import Mathlib

/-!
Shallow embedding of the ablecredit/vendor-posthog-client crate
(src/client.rs): credential resolution (ApiOptions), the capture client,
the Event/Properties data model and the wire payload (InnerEvent).

Rust `Result` plus the possibility of `assert!` panics is modelled by the
three-valued `Outcome`.  The shared hyper transport and the tokio timer
are modelled by an explicit `TransportOutcome` oracle: the outcome of
racing the in-flight request against the timer, as observed by the
`match timeout(self.timeout, future).await` in `Client::capture`.
`Duration` is modelled in whole milliseconds as `Nat`.
-/

set_option autoImplicit false

namespace Posthog

/-- Constant `API_ENDPOINT` from client.rs. -/
def API_ENDPOINT : String := "https://app.posthog.com/"

/-- Constant `APT_CAPTURE` from client.rs. -/
def APT_CAPTURE : String := "capture/"

/-- Constant `TIMEOUT: Duration = Duration::from_millis(2000)` from client.rs, in ms. -/
def TIMEOUT : Nat := 2000

/-- Constant `POSTHOG_ENV` from client.rs: the environment variable read by `from_env`. -/
def POSTHOG_ENV : String := "POSTHOG_API_KEY"

/-- Model of Rust `str::trim`: drop whitespace from both ends.  Defined by
structural recursion on the character list so the kernel can evaluate it. -/
def strTrim (s : String) : String :=
  ⟨((s.data.dropWhile Char.isWhitespace).reverse.dropWhile Char.isWhitespace).reverse⟩

/-- Model of Rust `str::to_lowercase` (character-wise lowercasing; the inputs
in this crate are ASCII). -/
def strToLower (s : String) : String :=
  ⟨s.data.map Char.toLower⟩

/-- Outcome of a Rust function returning `Result` that may also `panic!`
(via `assert!`): `ok`, `err`, or a propagating panic. -/
inductive Outcome (ε : Type) (α : Type) where
  | ok (a : α)
  | err (e : ε)
  | panics
deriving DecidableEq, Repr

/-- The errors credential resolution can produce: `std::env::var`'s
`VarError::NotPresent`, the `anyhow!("No Secret found for given posthog key")`
case, and the `anyhow!("error getting secret: {e:?}")` case. -/
inductive CredError where
  | envVarNotPresent
  | noSecretString
  | getSecretError (msg : String)
deriving DecidableEq, Repr

/-- `pub struct ApiOptions { endpoint: String, key: String }`. -/
structure ApiOptions where
  endpoint : String
  key : String
deriving DecidableEq, Repr

/-- `ApiOptions::new`. -/
def ApiOptions.new (endpoint key : String) : ApiOptions :=
  ⟨endpoint, key⟩

/-- `ApiOptions::from_env`, as a function of the value of the
`POSTHOG_API_KEY` environment variable (`none` = unset).
`std::env::var` fails on an unset variable; then
`assert!(!key.trim().is_empty())` panics on a whitespace-only value;
otherwise the UNTRIMMED value is stored as the key. -/
def ApiOptions.from_env (envVal : Option String) : Outcome CredError ApiOptions :=
  match envVal with
  | none => .err .envVarNotPresent
  | some key =>
    if strTrim key = "" then .panics
    else .ok (ApiOptions.new API_ENDPOINT key)

/-- Result of the AWS `get_secret_value().send().await` call, as an oracle:
`success s` is `Ok` with `secret_string = s`; `failure msg` is `Err(e)`. -/
inductive AwsFetch where
  | success (secret_string : Option String)
  | failure (msg : String)
deriving DecidableEq, Repr

/-- `ApiOptions::from_aws_secret_manager`, as a function of the secret-store
fetch outcome.  A fetch error or a missing `secret_string` is an error;
a blank secret panics on the `assert!`; otherwise the untrimmed secret
becomes the key. -/
def ApiOptions.from_aws_secret_manager (f : AwsFetch) : Outcome CredError ApiOptions :=
  match f with
  | .failure msg => .err (.getSecretError msg)
  | .success none => .err .noSecretString
  | .success (some key) =>
    if strTrim key = "" then .panics
    else .ok (ApiOptions.new API_ENDPOINT key)

/-- `ApiOptions::auto`: try the environment first; on `Err` (only) fall back
to the secret store; a panic in `from_env` propagates. -/
def ApiOptions.auto (envVal : Option String) (f : AwsFetch) : Outcome CredError ApiOptions :=
  match ApiOptions.from_env envVal with
  | .ok options => .ok options
  | .err _ =>
    match ApiOptions.from_aws_secret_manager f with
    | .ok options => .ok options
    | .err e => .err e
    | .panics => .panics
  | .panics => .panics

/-- `HashMap<String, String>::insert`: replace the value in place if the key
is present, otherwise add the entry.  Modelled on an association list whose
keys are unique (the `HashMap` invariant). -/
def hashMapInsert (k v : String) : List (String × String) → List (String × String)
  | [] => [(k, v)]
  | (k', v') :: rest =>
    if k' = k then (k, v) :: rest else (k', v') :: hashMapInsert k v rest

/-- `HashMap<String, String>` lookup (observable used in the statements). -/
def hashMapLookup (k : String) : List (String × String) → Option String
  | [] => none
  | (k', v) :: rest => if k' = k then some v else hashMapLookup k rest

/-- `pub struct Properties { distinct_id: String, #[serde(flatten)] properties: HashMap<String, String> }`. -/
structure Properties where
  distinct_id : String
  properties : List (String × String)
deriving DecidableEq, Repr

/-- `Properties::new`. -/
def Properties.new (distinct_id : String) : Properties :=
  ⟨distinct_id, []⟩

/-- `Properties::insert`. -/
def Properties.insert (p : Properties) (key value : String) : Properties :=
  ⟨p.distinct_id, hashMapInsert key value p.properties⟩

/-- `pub struct Event { event: String, properties: Properties, timestamp: Option<NaiveDateTime> }`.
The timestamp is modelled by its serialized form. -/
structure Event where
  event : String
  properties : Properties
  timestamp : Option String
deriving DecidableEq, Repr

/-- `Event::new`: caller-supplied name kept verbatim, empty attribute map,
no timestamp. -/
def Event.new (event distinct_id : String) : Event :=
  ⟨event, Properties.new distinct_id, none⟩

/-- `Event::insert_prop`. -/
def Event.insert_prop (e : Event) (key value : String) : Event :=
  ⟨e.event, e.properties.insert key value, e.timestamp⟩

/-- `Event::insert_prop_many`: `for_each` over the pairs in order. -/
def Event.insert_prop_many (e : Event) (props : List (String × String)) : Event :=
  props.foldl (fun acc kv => acc.insert_prop kv.1 kv.2) e

/-- `Event::set_timestamp`. -/
def Event.set_timestamp (e : Event) (ts : String) : Event :=
  ⟨e.event, e.properties, some ts⟩

/-- `struct InnerEvent { api_key, event, properties, timestamp }`: the wire payload. -/
structure InnerEvent where
  api_key : String
  event : String
  properties : Properties
  timestamp : Option String
deriving DecidableEq, Repr

/-- `InnerEvent::new`: inject the api key, lowercase the event name
(`event.event.to_lowercase()`), carry properties and timestamp over. -/
def InnerEvent.new (event : Event) (api_key : String) : InnerEvent :=
  ⟨api_key, strToLower event.event, event.properties, event.timestamp⟩

/-- JSON values, enough for the serde output of `InnerEvent`. -/
inductive Json where
  | null
  | str (s : String)
  | obj (fields : List (String × Json))

/-- serde serialization of `Properties`: `distinct_id` first, then the
attribute map flattened to the same level (`#[serde(flatten)]`). -/
def Properties.toJson (p : Properties) : Json :=
  .obj (("distinct_id", .str p.distinct_id) ::
    p.properties.map (fun kv => (kv.1, Json.str kv.2)))

/-- serde serialization of `InnerEvent` (field order of the struct;
a missing timestamp serializes as `null`). -/
def InnerEvent.toJson (ie : InnerEvent) : Json :=
  .obj [("api_key", .str ie.api_key),
        ("event", .str ie.event),
        ("properties", ie.properties.toJson),
        ("timestamp", match ie.timestamp with | none => .null | some t => .str t)]

/-- `pub struct Client { options: ApiOptions, timeout: Duration }`. -/
structure Client where
  options : ApiOptions
  timeout : Nat
deriving DecidableEq, Repr

/-- `Client::new`: default timeout `TIMEOUT`. -/
def Client.new (options : ApiOptions) : Client :=
  ⟨options, TIMEOUT⟩

/-- `Client::new_with_timeout`. -/
def Client.new_with_timeout (options : ApiOptions) (t : Nat) : Client :=
  ⟨options, t⟩

deriving instance DecidableEq for Except

/-- Outcome of `timeout(self.timeout, client.request(request)).await`:
either the request future completed (with the hyper result, success status
or transport error) before the timer, or the timer elapsed. -/
inductive TransportOutcome where
  | completed (result : Except String Nat)
  | elapsed
deriving DecidableEq, Repr

/-- Display of `tokio::time::error::Elapsed`. -/
def elapsedMessage : String := "deadline has elapsed"

/-- The URL `capture` posts to: `format!("{}{}", self.options.endpoint, APT_CAPTURE)`. -/
def Client.capture_url (c : Client) : String :=
  c.options.endpoint ++ APT_CAPTURE

/-- The JSON body `capture` sends: `serde_json::to_string(&inner_event)`
(serialization of this data model cannot fail, so the `?` is elided). -/
def Client.capture_body (c : Client) (event : Event) : Json :=
  (InnerEvent.new event c.options.key).toJson

/-- `Client::capture`, as a function of the race outcome.  The match on
`timeout(...)` only unwraps the timer layer: a completed request binds its
`Result` to `_response` and the function returns `Ok(())` whatever it was;
only the elapsed timer produces `Err(anyhow!("Error: {}", e))`. -/
def Client.capture (c : Client) (event : Event) (t : TransportOutcome) :
    Except String Unit :=
  let _body := c.capture_body event
  match t with
  | .completed _response => .ok ()
  | .elapsed => .error ("Error: " ++ elapsedMessage)

/-- `Client::capture_batch`: a sequential `for` loop with `?` on each
`capture`; each event is paired with its request's race outcome. -/
def Client.capture_batch (c : Client) :
    List (Event × TransportOutcome) → Except String Unit
  | [] => .ok ()
  | (e, t) :: rest =>
    match c.capture e t with
    | .ok _ => c.capture_batch rest
    | .error msg => .error msg

/-- The events for which the loop in `capture_batch` actually calls `capture`,
in order. -/
def Client.batchAttempted (c : Client) :
    List (Event × TransportOutcome) → List Event
  | [] => []
  | (e, t) :: rest =>
    match c.capture e t with
    | .ok _ => e :: c.batchAttempted rest
    | .error _ => [e]

/-- The events whose `capture` call returned `Ok` before the loop stopped. -/
def Client.batchDelivered (c : Client) :
    List (Event × TransportOutcome) → List Event
  | [] => []
  | (e, t) :: rest =>
    match c.capture e t with
    | .ok _ => e :: c.batchDelivered rest
    | .error _ => []

/-- The HashMap invariant on the association-list model: all keys distinct. -/
def keysDistinct (m : List (String × String)) : Prop :=
  m.Pairwise (fun p q => p.1 ≠ q.1)

instance (m : List (String × String)) : Decidable (keysDistinct m) :=
  inferInstanceAs (Decidable (List.Pairwise _ m))

theorem hashMapInsert_mem (k v : String) (m : List (String × String))
    (p : String × String) (hp : p ∈ hashMapInsert k v m) : p ∈ m ∨ p.1 = k := by
  induction m with
  | nil => simp [hashMapInsert] at hp; simp [hp]
  | cons q rest ih =>
    obtain ⟨k', v'⟩ := q
    by_cases hk : k' = k
    · simp [hashMapInsert, hk] at hp
      rcases hp with hp | hp
      · right; simp [hp]
      · left; simp [hp]
    · simp [hashMapInsert, hk] at hp
      rcases hp with hp | hp
      · left; simp [hp]
      · rcases ih hp with h2 | h2
        · left; simp [h2]
        · right; exact h2

theorem hashMapInsert_keysDistinct (k v : String) (m : List (String × String))
    (h : keysDistinct m) : keysDistinct (hashMapInsert k v m) := by
  induction m with
  | nil => simp [hashMapInsert, keysDistinct]
  | cons q rest ih =>
    obtain ⟨k', v'⟩ := q
    rw [keysDistinct, List.pairwise_cons] at h
    by_cases hk : k' = k
    · subst hk
      simp only [hashMapInsert, if_pos rfl, if_true, keysDistinct, List.pairwise_cons]
      exact ⟨fun q hq => h.1 q hq, h.2⟩
    · simp only [hashMapInsert, if_neg hk, keysDistinct, List.pairwise_cons]
      refine ⟨fun q hq => ?_, ih h.2⟩
      rcases hashMapInsert_mem k v rest q hq with h2 | h2
      · exact h.1 q h2
      · rw [h2]; exact hk

theorem filter_key_eq_nil (k : String) (m : List (String × String))
    (h : ∀ p ∈ m, p.1 ≠ k) : m.filter (fun kv => kv.1 == k) = [] := by
  induction m with
  | nil => rfl
  | cons q rest ih =>
    rw [List.filter_cons]
    rw [show (q.1 == k) = false by simpa using h q (by simp)]
    exact ih fun p hp => h p (by simp [hp])

theorem hashMapInsert_filter_key (k v : String) (m : List (String × String))
    (h : keysDistinct m) :
    (hashMapInsert k v m).filter (fun kv => kv.1 == k) = [(k, v)] := by
  induction m with
  | nil => simp [hashMapInsert, List.filter]
  | cons q rest ih =>
    obtain ⟨k', v'⟩ := q
    rw [keysDistinct, List.pairwise_cons] at h
    by_cases hk : k' = k
    · subst hk
      simp only [hashMapInsert, if_pos rfl, List.filter_cons, beq_self_eq_true, if_true]
      rw [filter_key_eq_nil k' rest fun p hp => (h.1 p hp).symm]
    · simp only [hashMapInsert, if_neg hk, List.filter_cons]
      rw [show (k' == k) = false by simpa using hk]
      exact ih h.2

theorem hashMapLookup_insert_self (k v : String) (m : List (String × String)) :
    hashMapLookup k (hashMapInsert k v m) = some v := by
  induction m with
  | nil => simp [hashMapInsert, hashMapLookup]
  | cons p rest ih =>
    obtain ⟨k', v'⟩ := p
    by_cases hk : k' = k
    · simp [hashMapInsert, hk, hashMapLookup]
    · simp [hashMapInsert, hk, hashMapLookup, ih]

theorem hashMapLookup_insert_other (k k' v' : String) (m : List (String × String))
    (h : k' ≠ k) : hashMapLookup k (hashMapInsert k' v' m) = hashMapLookup k m := by
  induction m with
  | nil => simp [hashMapInsert, hashMapLookup, h]
  | cons p rest ih =>
    obtain ⟨a, b⟩ := p
    by_cases ha : a = k'
    · simp [hashMapInsert, ha, hashMapLookup, h]
    · simp [hashMapInsert, ha, hashMapLookup, ih]

theorem insert_prop_many_props (e : Event) (ps : List (String × String)) :
    (e.insert_prop_many ps).properties.properties =
      ps.foldl (fun m kv => hashMapInsert kv.1 kv.2 m) e.properties.properties := by
  induction ps generalizing e with
  | nil => rfl
  | cons p ps ih =>
    have h1 : e.insert_prop_many (p :: ps) = (e.insert_prop p.1 p.2).insert_prop_many ps := rfl
    rw [h1, ih]
    rfl

theorem foldl_insert_lookup_preserved (k : String) (ps : List (String × String))
    (m : List (String × String)) (h : ∀ p ∈ ps, p.1 ≠ k) :
    hashMapLookup k (ps.foldl (fun m kv => hashMapInsert kv.1 kv.2 m) m) =
      hashMapLookup k m := by
  induction ps generalizing m with
  | nil => rfl
  | cons p ps ih =>
    rw [List.foldl_cons, ih (hashMapInsert p.1 p.2 m) (fun q hq => h q (by simp [hq]))]
    exact hashMapLookup_insert_other k p.1 p.2 m (h p (by simp))

theorem capture_batch_append (c : Client) (l1 l2 : List (Event × TransportOutcome))
    (h : ∀ p ∈ l1, c.capture p.1 p.2 = .ok ()) :
    c.capture_batch (l1 ++ l2) = c.capture_batch l2 ∧
    c.batchAttempted (l1 ++ l2) = l1.map Prod.fst ++ c.batchAttempted l2 ∧
    c.batchDelivered (l1 ++ l2) = l1.map Prod.fst ++ c.batchDelivered l2 := by
  induction l1 with
  | nil => simp
  | cons p rest ih =>
    obtain ⟨e, t⟩ := p
    have hc : c.capture e t = .ok () := h (e, t) (by simp)
    have ih2 := ih (fun q hq => h q (by simp [hq]))
    simp only [List.cons_append, Client.capture_batch, Client.batchAttempted,
      Client.batchDelivered, hc, List.map_cons]
    refine ⟨ih2.1, ?_, ?_⟩
    · rw [show rest.append l2 = rest ++ l2 from rfl, ih2.2.1]
    · rw [show rest.append l2 = rest ++ l2 from rfl, ih2.2.2]

/-- C1 (counterexample): a request that completes within the timeout but
fails at the transport layer makes `capture` return success, not an error. -/
theorem c1_counterexample :
    (Client.new (ApiOptions.new API_ENDPOINT "k")).capture (Event.new "e" "d")
      (.completed (.error "connection refused")) = .ok () := rfl

/-- C1 (amended): for every client, event, and request future that completes
before the timer — whether with a response or with a transport error — the
result is bound to `_response` and discarded, and `capture` returns `Ok(())`. -/
theorem c1_amended (c : Client) (event : Event) (r : Except String Nat) :
    c.capture event (.completed r) = .ok () := rfl

/-- C2 (counterexample): for the env value " mykey " resolution succeeds with
the UNTRIMMED key " mykey ", not the trimmed value "mykey". -/
theorem c2_counterexample :
    ApiOptions.from_env (some " mykey ") = .ok (ApiOptions.new API_ENDPOINT " mykey ") ∧
    strTrim " mykey " = "mykey" ∧ (" mykey " : String) ≠ "mykey" :=
  ⟨by decide, by decide, by decide⟩

/-- C2 (amended): for every env value that is non-empty after trimming,
`from_env` and `auto` succeed with the fixed production endpoint and the raw
(untrimmed) value as key, for any secret-store behaviour (never invoked). -/
theorem c2_amended (v : String) (f : AwsFetch) (h : strTrim v ≠ "") :
    ApiOptions.from_env (some v) = .ok (ApiOptions.new API_ENDPOINT v) ∧
    ApiOptions.auto (some v) f = .ok (ApiOptions.new API_ENDPOINT v) := by
  have h1 : ApiOptions.from_env (some v) = .ok (ApiOptions.new API_ENDPOINT v) := by
    simp [ApiOptions.from_env, h]
  exact ⟨h1, by simp [ApiOptions.auto, h1]⟩

/-- C2 (witness): the amended claim at the concrete value "abc" with a
failing secret store. -/
theorem c2_witness :
    strTrim "abc" ≠ "" ∧
    (ApiOptions.from_env (some "abc") = .ok (ApiOptions.new API_ENDPOINT "abc") ∧
     ApiOptions.auto (some "abc") (.failure "x") = .ok (ApiOptions.new API_ENDPOINT "abc")) :=
  ⟨by decide, c2_amended "abc" (.failure "x") (by decide)⟩

/-- C3 (counterexample): a whitespace-only env value makes `from_env` panic
(the `assert!`), rather than return an error result. -/
theorem c3_counterexample :
    ApiOptions.from_env (some "   ") = .panics := by decide

/-- C3 (amended): a blank credential never produces an ApiOptions — an unset
variable is an error, but a blank env value or blank secret panics on the
`assert!` rather than returning an error; and `auto` never succeeds with a
key that is blank after trimming. -/
theorem c3_amended (v s : String) (hv : strTrim v = "") (hs : strTrim s = "") :
    ApiOptions.from_env (some v) = .panics ∧
    ApiOptions.from_aws_secret_manager (.success (some s)) = .panics ∧
    ApiOptions.from_env none = .err .envVarNotPresent ∧
    (∀ (envVal : Option String) (f : AwsFetch) (o : ApiOptions),
      ApiOptions.auto envVal f = .ok o → strTrim o.key ≠ "") := by
  refine ⟨by simp [ApiOptions.from_env, hv],
          by simp [ApiOptions.from_aws_secret_manager, hs], rfl, ?_⟩
  intro envVal f o h
  cases envVal with
  | some key =>
    by_cases hk : strTrim key = ""
    · simp [ApiOptions.auto, ApiOptions.from_env, hk] at h
    · simp [ApiOptions.auto, ApiOptions.from_env, hk] at h
      rw [← h]
      exact hk
  | none =>
    cases f with
    | failure m => simp [ApiOptions.auto, ApiOptions.from_env,
        ApiOptions.from_aws_secret_manager] at h
    | success s2 =>
      cases s2 with
      | none => simp [ApiOptions.auto, ApiOptions.from_env,
          ApiOptions.from_aws_secret_manager] at h
      | some key =>
        by_cases hk : strTrim key = ""
        · simp [ApiOptions.auto, ApiOptions.from_env,
            ApiOptions.from_aws_secret_manager, hk] at h
        · simp [ApiOptions.auto, ApiOptions.from_env,
            ApiOptions.from_aws_secret_manager, hk] at h
          rw [← h]
          exact hk

/-- C3 (witness): the amended claim at concrete blank inputs, and the `auto`
invariant applied at a concrete successful resolution. -/
theorem c3_witness :
    ApiOptions.from_env (some "  ") = .panics ∧
    ApiOptions.from_aws_secret_manager (.success (some "  ")) = .panics ∧
    ApiOptions.from_env none = .err .envVarNotPresent ∧
    strTrim (ApiOptions.new API_ENDPOINT "k").key ≠ "" := by
  have h := c3_amended "  " "  " (by decide) (by decide)
  exact ⟨h.1, h.2.1, h.2.2.1,
    h.2.2.2 (some "k") (.failure "x") (ApiOptions.new API_ENDPOINT "k") (by decide)⟩

/-- C4 (counterexample): for a BLANK (not unset) env value and a failing
secret store, `auto` panics instead of returning the secret store's error. -/
theorem c4_counterexample :
    ApiOptions.auto (some " ") (.failure "boom") = .panics ∧
    (Outcome.panics : Outcome CredError ApiOptions) ≠ .err (.getSecretError "boom") :=
  ⟨by decide, by decide⟩

/-- C4 (amended): for an UNSET env variable and a secret-store attempt that
errors, `auto` returns exactly the secret store's error, and that error is
never the environment source's own failure. -/
theorem c4_amended (f : AwsFetch) (e : CredError)
    (h : ApiOptions.from_aws_secret_manager f = .err e) :
    ApiOptions.auto none f = .err e ∧ e ≠ CredError.envVarNotPresent := by
  constructor
  · simp [ApiOptions.auto, ApiOptions.from_env, h]
  · rintro rfl
    cases f with
    | failure m => simp [ApiOptions.from_aws_secret_manager] at h
    | success s =>
      cases s with
      | none => simp [ApiOptions.from_aws_secret_manager] at h
      | some key =>
        rw [ApiOptions.from_aws_secret_manager] at h
        by_cases hk : strTrim key = "" <;> simp [hk] at h

/-- C4 (witness): the amended claim at a concrete failing fetch. -/
theorem c4_witness :
    ApiOptions.from_aws_secret_manager (.failure "boom") = .err (.getSecretError "boom") ∧
    (ApiOptions.auto none (.failure "boom") = .err (.getSecretError "boom") ∧
     CredError.getSecretError "boom" ≠ CredError.envVarNotPresent) :=
  ⟨rfl, c4_amended (.failure "boom") (.getSecretError "boom") rfl⟩

/-- C5: `capture_batch` submits events sequentially in list order and stops
at the first `capture` failure, returning that event's error: the events
before it are the ones delivered, the ones after it are never attempted; and
if every capture succeeds (including the empty list) it returns success. -/
theorem c5_batch (c : Client) (l1 l2 : List (Event × TransportOutcome)) (e : Event)
    (t : TransportOutcome) (msg : String)
    (hok : ∀ p ∈ l1, c.capture p.1 p.2 = Except.ok ())
    (hfail : c.capture e t = Except.error msg) :
    (c.capture_batch (l1 ++ (e, t) :: l2) = Except.error msg ∧
     c.batchAttempted (l1 ++ (e, t) :: l2) = l1.map Prod.fst ++ [e] ∧
     c.batchDelivered (l1 ++ (e, t) :: l2) = l1.map Prod.fst) ∧
    ∀ l : List (Event × TransportOutcome),
      (∀ p ∈ l, c.capture p.1 p.2 = Except.ok ()) →
      c.capture_batch l = Except.ok () ∧ c.batchDelivered l = l.map Prod.fst := by
  constructor
  · have ha := capture_batch_append c l1 ((e, t) :: l2) hok
    have h1 : c.capture_batch ((e, t) :: l2) = Except.error msg := by
      simp [Client.capture_batch, hfail]
    have h2 : c.batchAttempted ((e, t) :: l2) = [e] := by
      simp [Client.batchAttempted, hfail]
    have h3 : c.batchDelivered ((e, t) :: l2) = [] := by
      simp [Client.batchDelivered, hfail]
    exact ⟨ha.1.trans h1, ha.2.1.trans (by rw [h2]), ha.2.2.trans (by rw [h3]; simp)⟩
  · intro l hl
    have h := capture_batch_append c l [] hl
    rw [List.append_nil] at h
    exact ⟨h.1, by rw [h.2.2]; simp [Client.batchDelivered]⟩

/-- C5 (witness): a three-event batch whose second request times out: the
batch returns the second event's error, attempts exactly the first two
events, and delivers exactly the first. -/
theorem c5_witness :
    (Client.new (ApiOptions.new API_ENDPOINT "k")).capture_batch
        [(Event.new "a" "d", .completed (.ok 200)), (Event.new "b" "d", .elapsed),
         (Event.new "c" "d", .completed (.ok 200))] =
      Except.error ("Error: " ++ elapsedMessage) ∧
    (Client.new (ApiOptions.new API_ENDPOINT "k")).batchAttempted
        [(Event.new "a" "d", .completed (.ok 200)), (Event.new "b" "d", .elapsed),
         (Event.new "c" "d", .completed (.ok 200))] =
      [Event.new "a" "d", Event.new "b" "d"] ∧
    (Client.new (ApiOptions.new API_ENDPOINT "k")).batchDelivered
        [(Event.new "a" "d", .completed (.ok 200)), (Event.new "b" "d", .elapsed),
         (Event.new "c" "d", .completed (.ok 200))] =
      [Event.new "a" "d"] :=
  (c5_batch (Client.new (ApiOptions.new API_ENDPOINT "k"))
    [(Event.new "a" "d", .completed (.ok 200))]
    [(Event.new "c" "d", .completed (.ok 200))]
    (Event.new "b" "d") .elapsed ("Error: " ++ elapsedMessage)
    (by decide) rfl).1

/-- C6: the wire payload lowercases the event name while the key, properties
and timestamp are carried over unchanged, and the original Event keeps its
caller-supplied casing; concretely "TEST_EVENT" becomes "test_event". -/
theorem c6_lowercase (e : Event) (k : String) :
    (InnerEvent.new e k).event = strToLower e.event ∧
    (InnerEvent.new e k).api_key = k ∧
    (InnerEvent.new e k).properties = e.properties ∧
    (InnerEvent.new e k).timestamp = e.timestamp ∧
    (InnerEvent.new (Event.new "TEST_EVENT" "d") k).event = "test_event" ∧
    (Event.new "TEST_EVENT" "d").event = "TEST_EVENT" :=
  ⟨rfl, rfl, rfl, rfl, rfl, rfl⟩

/-- C7: the body `capture` builds for the Event "event"/"distinct_id" with
one property key -> value and no timestamp, under api key K, is exactly the
flattened JSON object of the spec. -/
theorem c7_roundtrip (K : String) :
    (Client.new (ApiOptions.new API_ENDPOINT K)).capture_body
        ((Event.new "event" "distinct_id").insert_prop "key" "value") =
      Json.obj [("api_key", .str K), ("event", .str "event"),
        ("properties", .obj [("distinct_id", .str "distinct_id"), ("key", .str "value")]),
        ("timestamp", .null)] := rfl

/-- C8: inserting (k, a) then (k, b) leaves exactly one attribute for k, with
value b; and `insert_prop_many` applies pairs in order under the same
overwrite rule, so the last pair for a key wins. -/
theorem c8_overwrite (e : Event) (k a b : String)
    (hd : keysDistinct e.properties.properties) :
    (((e.insert_prop k a).insert_prop k b).properties.properties.filter
        (fun kv => kv.1 == k) = [(k, b)]) ∧
    (∀ (ps1 ps2 : List (String × String)) (v : String), (∀ p ∈ ps2, p.1 ≠ k) →
      hashMapLookup k ((e.insert_prop_many (ps1 ++ (k, v) :: ps2)).properties.properties)
        = some v) := by
  constructor
  · exact hashMapInsert_filter_key k b _ (hashMapInsert_keysDistinct k a _ hd)
  · intro ps1 ps2 v hps2
    rw [insert_prop_many_props, List.foldl_append, List.foldl_cons]
    rw [foldl_insert_lookup_preserved k ps2 _ hps2]
    exact hashMapLookup_insert_self k v _

/-- C8 (witness): the overwrite and last-pair-wins properties at concrete
keys on a freshly built event. -/
theorem c8_witness :
    ((((Event.new "e" "d").insert_prop "k" "a").insert_prop "k" "b").properties.properties.filter
        (fun kv => kv.1 == "k") = [("k", "b")]) ∧
    hashMapLookup "k" (((Event.new "e" "d").insert_prop_many
        ([("x", "1")] ++ ("k", "v") :: [("y", "2")])).properties.properties) = some "v" :=
  ⟨(c8_overwrite (Event.new "e" "d") "k" "a" "b" (by decide)).1,
   (c8_overwrite (Event.new "e" "d") "k" "a" "b" (by decide)).2
     [("x", "1")] [("y", "2")] "v" (by decide)⟩

/-- C9 (counterexample): two clients with different configured timeouts
produce the identical timeout error, so the error does not carry the
configured duration bound. -/
theorem c9_counterexample :
    (Client.new_with_timeout (ApiOptions.new API_ENDPOINT "k") 2000).capture
        (Event.new "e" "d") .elapsed =
      (Client.new_with_timeout (ApiOptions.new API_ENDPOINT "k") 50).capture
        (Event.new "e" "d") .elapsed ∧
    (2000 : Nat) ≠ 50 :=
  ⟨rfl, by decide⟩

/-- C9 (amended): on timeout `capture` returns an error with the fixed
message built from the timer's "deadline has elapsed" — an error case that
only the timeout produces (completed requests return success) — but the
message is the same for every client, so it does not carry the configured
duration. -/
theorem c9_amended (c : Client) (event : Event) :
    c.capture event .elapsed = .error ("Error: " ++ elapsedMessage) ∧
    (∀ (c2 : Client) (event2 : Event),
      c2.capture event2 .elapsed = c.capture event .elapsed) :=
  ⟨rfl, fun _ _ => rfl⟩

/-- C10: `Client::new` sets the timeout to the 2000 ms default and
`new_with_timeout` to the given duration; both store the options unchanged. -/
theorem c10_timeouts (o : ApiOptions) (t : Nat) :
    Client.new o = Client.mk o 2000 ∧ TIMEOUT = 2000 ∧
    Client.new_with_timeout o t = Client.mk o t ∧
    (Client.new o).options = o ∧ (Client.new_with_timeout o t).options = o :=
  ⟨rfl, rfl, rfl, rfl, rfl⟩

end Posthog
